import Mathlib

/-!
Shallow embedding of the wknup Vulkan core (device selection, capability
negotiation, swapchain configuration, command-buffer state machine, fence
state, queue-family selection) with theorems checking the natural-language
specification against it.

Conventions:
* Rust `&mut self` methods that can fail are embedded as functions
  returning `Except e Unit × State` (the state component is the value of
  `self` after the call; on the error path it equals the input).
* Rust panics (`panic!`, `unwrap`, indexing) are embedded as `Option`
  (`none` = panic) or as a dedicated error constructor.
* C strings and Rust `String`s are both embedded as `String`.
* `f32` priorities (the only value used is the literal `0.0`) are embedded
  as `Rat`, with `0.0` mapped to `0`.
* `u32`/`i32` values are embedded as `Nat`/`Int`; the one place where u32
  wrap-around is reachable (`choose_image_count`) takes it explicitly
  modulo `2 ^ 32`.
-/

namespace Wknup

/-! ## Capability negotiators (src/vk/extensions.rs, src/vk/validation.rs,
src/vk/device/device_extensions.rs) -/

/-- One entry of `ExtensionManager.available` (struct `Extension` in
src/vk/extensions.rs): a name plus an `enabled` mark. -/
structure Extension where
  name : String
  enabled : Bool
deriving DecidableEq, Repr

/-- `ExtensionManager` (src/vk/extensions.rs): the list of available
instance extensions, each with its `enabled` mark. -/
structure ExtensionManager where
  available : List Extension
deriving DecidableEq, Repr

/-- `ExtensionManager::check_extensions`: walks the required names in
order and fails with the first one no available entry is named after. -/
def ExtensionManager.check_extensions (m : ExtensionManager) :
    List String → Except String Unit
  | [] => .ok ()
  | ext :: rest =>
    if m.available.any (fun a => a.name = ext) then
      m.check_extensions rest
    else
      .error ext

/-- `ExtensionManager::add_extensions`: checks first; on success marks
every available entry whose name occurs in the request as enabled. The
returned manager is the value of `self` after the call. -/
def ExtensionManager.add_extensions (m : ExtensionManager)
    (extensions : List String) : Except String Unit × ExtensionManager :=
  match m.check_extensions extensions with
  | .error e => (.error e, m)
  | .ok () =>
    (.ok (), ⟨m.available.map fun a =>
      if extensions.contains a.name then { a with enabled := true } else a⟩)

/-- One entry of `ValidationLayerManager.available` (struct
`ValidationLayer` in src/vk/validation.rs). -/
structure ValidationLayer where
  name : String
  enabled : Bool
deriving DecidableEq, Repr

/-- `ValidationLayerManager` (debug variant, src/vk/validation.rs). -/
structure ValidationLayerManager where
  available : List ValidationLayer
deriving DecidableEq, Repr

/-- `ValidationLayerManager::check_layers`: walks the required names in
order and fails with the first one no available layer is named after. -/
def ValidationLayerManager.check_layers (m : ValidationLayerManager) :
    List String → Except String Unit
  | [] => .ok ()
  | l :: rest =>
    if m.available.any (fun vl => vl.name = l) then
      m.check_layers rest
    else
      .error l

/-- `ValidationLayerManager::add_layers`: checks first; on success marks
every available layer whose name occurs in the request as enabled. -/
def ValidationLayerManager.add_layers (m : ValidationLayerManager)
    (layers : List String) : Except String Unit × ValidationLayerManager :=
  match m.check_layers layers with
  | .error e => (.error e, m)
  | .ok () =>
    (.ok (), ⟨m.available.map fun vl =>
      if layers.contains vl.name then { vl with enabled := true } else vl⟩)

/-- `DeviceExtensionManager` (src/vk/device/device_extensions.rs): the
`HashSet`s of available and enabled names, embedded as lists with set
membership via `contains`. -/
structure DeviceExtensionManager where
  available : List String
  enabled : List String
deriving DecidableEq, Repr

/-- `DeviceExtensionManager::check_extensions`: walks the required names
in order and fails with the first one not contained in `available`. -/
def DeviceExtensionManager.check_extensions (m : DeviceExtensionManager) :
    List String → Except String Unit
  | [] => .ok ()
  | ext :: rest =>
    if m.available.contains ext then
      m.check_extensions rest
    else
      .error ext

/-- `HashSet::insert`, embedded on lists: a no-op when the element is
already a member. -/
def setInsert (s : List String) (x : String) : List String :=
  if s.contains x then s else x :: s

/-- `DeviceExtensionManager::add_extensions`: checks first; on success
inserts every required name into `enabled`. -/
def DeviceExtensionManager.add_extensions (m : DeviceExtensionManager)
    (extensions : List String) :
    Except String Unit × DeviceExtensionManager :=
  match m.check_extensions extensions with
  | .error e => (.error e, m)
  | .ok () =>
    (.ok (), { m with enabled := extensions.foldl setInsert m.enabled })

/-! ## Swapchain configuration (src/vk/device/swapchain.rs) -/

/-- The `vk::Format` values this code distinguishes. -/
inductive VkFormat where
  | b8g8r8a8Srgb
  | r8g8b8a8Unorm
  | otherFormat (code : Nat)
deriving DecidableEq, Repr

/-- The `vk::ColorSpaceKHR` values this code distinguishes. -/
inductive ColorSpace where
  | srgbNonlinear
  | otherColorSpace (code : Nat)
deriving DecidableEq, Repr

/-- The `vk::PresentModeKHR` values this code distinguishes. -/
inductive PresentMode where
  | fifo
  | mailbox
  | immediate
  | otherMode (code : Nat)
deriving DecidableEq, Repr

/-- `vk::SurfaceFormatKHR`. -/
structure SurfaceFormat where
  format : VkFormat
  color_space : ColorSpace
deriving DecidableEq, Repr

/-- `vk::Extent2D` (u32 fields). -/
structure Extent2D where
  width : Nat
  height : Nat
deriving DecidableEq, Repr

/-- The fields of `vk::SurfaceCapabilitiesKHR` this code reads (all u32
or u32 pairs; `current_transform` kept as an opaque code). -/
structure SurfaceCapabilities where
  min_image_count : Nat
  max_image_count : Nat
  current_extent : Extent2D
  current_transform : Nat
deriving DecidableEq, Repr

/-- `PhysicalDeviceSurfaceInfo` (src/vk/physical_device.rs). -/
structure PhysicalDeviceSurfaceInfo where
  capabilities : SurfaceCapabilities
  formats : List SurfaceFormat
  present_modes : List PresentMode
deriving DecidableEq, Repr

/-- `choose_format`: first format equal to `B8G8R8A8_SRGB` with
`SRGB_NONLINEAR` color space. -/
def choose_format (formats : List SurfaceFormat) : Option SurfaceFormat :=
  formats.find? fun format =>
    format.format = VkFormat.b8g8r8a8Srgb
      && format.color_space = ColorSpace.srgbNonlinear

/-- `choose_present_mode`: first mode equal to `FIFO`. -/
def choose_present_mode (modes : List PresentMode) : Option PresentMode :=
  modes.find? fun mode => mode = PresentMode.fifo

/-- `check_surface_info`: false when either `choose_format` or
`choose_present_mode` comes back empty, true otherwise. -/
def check_surface_info (surface_info : PhysicalDeviceSurfaceInfo) : Bool :=
  if (choose_format surface_info.formats).isNone
      || (choose_present_mode surface_info.present_modes).isNone then
    false
  else
    true

/-- `choose_image_count`: `min_image_count + 1` in u32 arithmetic,
replaced by `max_image_count` when that cap is non-zero and lower. -/
def choose_image_count (capabilities : SurfaceCapabilities) : Nat :=
  let image_count := (capabilities.min_image_count + 1) % 2 ^ 32
  if capabilities.max_image_count ≠ 0
      ∧ capabilities.max_image_count < image_count then
    capabilities.max_image_count
  else
    image_count

/-! ## Command buffer state machine (src/vk/command_buffer.rs) -/

/-- `CommandBufferState` (src/vk/command_buffer.rs). -/
inductive CommandBufferState where
  | initial
  | recording
  | executable
  | pending
  | invalid
deriving DecidableEq, Repr

/-- `CommandBufferStateError`: carries the state the buffer was in when
the operation was rejected. -/
structure CommandBufferStateError where
  state : CommandBufferState
deriving DecidableEq, Repr

/-- A shared-ownership marker retained on the buffer while recording
(`markers: Vec<Arc<dyn Any>>`); render passes and framebuffers are
embedded as opaque handles. -/
inductive Marker where
  | renderPassMarker (handle : Nat)
  | framebufferMarker (handle : Nat)
deriving DecidableEq, Repr

/-- `CommandBuffer`: its state plus the retained markers (the pool,
device and raw driver handle play no part in the state machine). -/
structure CommandBuffer where
  state : CommandBufferState
  markers : List Marker
deriving DecidableEq, Repr

/-- `DrawInfo` (all u32). -/
structure DrawInfo where
  vertex_count : Nat
  instance_count : Nat
  first_vertex : Nat
  first_instance : Nat
deriving DecidableEq, Repr

/-- `CommandBuffer::begin`: allowed from `Initial` or `Executable`, moves
to `Recording`; any other state is rejected with the current state and
the buffer untouched. -/
def CommandBuffer.begin (cb : CommandBuffer) :
    Except CommandBufferStateError Unit × CommandBuffer :=
  match cb.state with
  | .initial => (.ok (), { cb with state := .recording })
  | .executable => (.ok (), { cb with state := .recording })
  | s => (.error ⟨s⟩, cb)

/-- `CommandBuffer::cmd_begin_render_pass`: allowed only while
`Recording`; pushes shared-ownership markers for the render pass and the
framebuffer. -/
def CommandBuffer.cmd_begin_render_pass (cb : CommandBuffer)
    (render_pass framebuffer : Nat) :
    Except CommandBufferStateError Unit × CommandBuffer :=
  if cb.state ≠ CommandBufferState.recording then
    (.error ⟨cb.state⟩, cb)
  else
    (.ok (), { cb with markers := cb.markers
        ++ [Marker.renderPassMarker render_pass,
            Marker.framebufferMarker framebuffer] })

/-- `CommandBuffer::cmd_bind_graphics_pipeline`: allowed only while
`Recording`. -/
def CommandBuffer.cmd_bind_graphics_pipeline (cb : CommandBuffer)
    (_pipeline : Nat) :
    Except CommandBufferStateError Unit × CommandBuffer :=
  if cb.state ≠ CommandBufferState.recording then
    (.error ⟨cb.state⟩, cb)
  else
    (.ok (), cb)

/-- `CommandBuffer::cmd_set_viewport`: allowed only while `Recording`. -/
def CommandBuffer.cmd_set_viewport (cb : CommandBuffer)
    (_viewport : Nat) :
    Except CommandBufferStateError Unit × CommandBuffer :=
  if cb.state ≠ CommandBufferState.recording then
    (.error ⟨cb.state⟩, cb)
  else
    (.ok (), cb)

/-- `CommandBuffer::cmd_set_scissor`: allowed only while `Recording`. -/
def CommandBuffer.cmd_set_scissor (cb : CommandBuffer)
    (_scissor : Nat) :
    Except CommandBufferStateError Unit × CommandBuffer :=
  if cb.state ≠ CommandBufferState.recording then
    (.error ⟨cb.state⟩, cb)
  else
    (.ok (), cb)

/-- `CommandBuffer::cmd_draw`: allowed only while `Recording`. -/
def CommandBuffer.cmd_draw (cb : CommandBuffer) (_draw_info : DrawInfo) :
    Except CommandBufferStateError Unit × CommandBuffer :=
  if cb.state ≠ CommandBufferState.recording then
    (.error ⟨cb.state⟩, cb)
  else
    (.ok (), cb)

/-- `CommandBuffer::cmd_end_render_pass`: allowed only while `Recording`
(takes `&self` in the source, so it never mutates the buffer). -/
def CommandBuffer.cmd_end_render_pass (cb : CommandBuffer) :
    Except CommandBufferStateError Unit × CommandBuffer :=
  if cb.state ≠ CommandBufferState.recording then
    (.error ⟨cb.state⟩, cb)
  else
    (.ok (), cb)

/-- `CommandBuffer::end`: allowed only while `Recording`, moves to
`Executable`. -/
def CommandBuffer.recordEnd (cb : CommandBuffer) :
    Except CommandBufferStateError Unit × CommandBuffer :=
  if cb.state ≠ CommandBufferState.recording then
    (.error ⟨cb.state⟩, cb)
  else
    (.ok (), { cb with state := .executable })

/-! ## Fence states (src/vk/fence.rs) -/

/-- `FenceState`: `Ready` holds the raw `vk::Fence` handle; `Waiting`
holds the join handle of the background waiter, which will eventually
yield the fence handle back (embedded as the handle it will return). -/
inductive FenceState where
  | ready (fence : Nat)
  | waiting (fence : Nat)
deriving DecidableEq, Repr

/-- `Fence`: the device reference and debug name play no part in the
state discipline being verified. -/
structure Fence where
  fence : FenceState
deriving DecidableEq, Repr

/-- `FenceState::start_wait`: panics (`none`) unless the state is
`Ready`; otherwise hands the handle to the spawned waiter and moves to
`Waiting`. -/
def FenceState.start_wait : FenceState → Option FenceState
  | .ready fence => some (FenceState.waiting fence)
  | .waiting _ => none

/-- `Fence::reset`: panics (`none`) unless the state is `Ready`; the
driver call leaves the state unchanged. -/
def Fence.reset (f : Fence) : Option Fence :=
  match f.fence with
  | .ready _ => some f
  | .waiting _ => none

/-- `Fence::raw_handle`: panics (`none`) unless the state is `Ready`. -/
def Fence.raw_handle (f : Fence) : Option Nat :=
  match f.fence with
  | .ready fence => some fence
  | .waiting _ => none

/-- `Drop for Fence`: destroys the handle when `Ready`, panics (`none`)
when `Waiting`. -/
def Fence.drop (f : Fence) : Option Unit :=
  match f.fence with
  | .ready _ => some ()
  | .waiting _ => none

/-! ## Draw queue family selector (src/vk/selectors.rs) -/

/-- The two panic sites of `requirements`/`fill_queues`: the
incomplete-chooser `panic!` and the `unwrap`/index panics on the raw
queue list. -/
inductive SelectorPanic where
  | incompleteChooser
  | badRawQueues
deriving DecidableEq, Repr

/-- `DrawQueueFamilySelector`: the accumulated graphics and present
family candidates (the instance and surface references only feed the
inspection filters). -/
structure DrawQueueFamilySelector where
  graphics : Option Nat
  present : Option Nat
deriving DecidableEq, Repr

/-- `DrawQueues`: the typed pair produced by `fill_queues`; queues are
embedded as opaque handles. -/
structure DrawQueues where
  graphics : Nat
  present : Nat
deriving DecidableEq, Repr

/-- `DrawQueueFamilySelector::is_complete`. -/
def DrawQueueFamilySelector.is_complete (s : DrawQueueFamilySelector) : Bool :=
  s.graphics.isSome && s.present.isSome

/-- `DrawQueueFamilySelector::requirements`: panics when the chooser is
incomplete; otherwise one `(family, [0.0])` entry when graphics and
present coincide, two entries otherwise. -/
def DrawQueueFamilySelector.requirements (s : DrawQueueFamilySelector) :
    Except SelectorPanic (List (Nat × List Rat)) :=
  if !s.is_complete then
    .error .incompleteChooser
  else
    match s.graphics, s.present with
    | some g, some p =>
      if g = p then
        .ok [(g, [0])]
      else
        .ok [(g, [0]), (p, [0])]
    | _, _ => .error .badRawQueues

/-- `DrawQueueFamilySelector::fill_queues`: panics when the chooser is
incomplete; otherwise looks each family up in the raw list by id and
takes the first queue of the matching entry (`unwrap` and `[0]` panics
become `badRawQueues`). -/
def DrawQueueFamilySelector.fill_queues (s : DrawQueueFamilySelector)
    (queues_raw : List (Nat × List Nat)) :
    Except SelectorPanic DrawQueues :=
  if !s.is_complete then
    .error .incompleteChooser
  else
    match s.graphics, s.present with
    | some g, some p =>
      match queues_raw.find? (fun e => e.1 = p),
          queues_raw.find? (fun e => e.1 = g) with
      | some pe, some ge =>
        match pe.2.head?, ge.2.head? with
        | some pq, some gq => .ok ⟨gq, pq⟩
        | _, _ => .error .badRawQueues
      | _, _ => .error .badRawQueues
    | _, _ => .error .badRawQueues

/-! ## Command pool creation (src/vk/command_pool.rs) -/

/-- `CommandPoolCreationError::InvalidQueueFamily(index, count)`: the
offending index and the length of the valid range `0..count`. -/
inductive CommandPoolCreationError where
  | invalidQueueFamily (index : Nat) (count : Nat)
deriving DecidableEq, Repr

/-- `CommandPool`: the queue family the pool was created for (the device
reference and raw driver handle carry no checked content). -/
structure CommandPool where
  queue_family_index : Nat
deriving DecidableEq, Repr

/-- `CommandPool::new`: rejects a queue family index that is not below
the device's queue-family count, otherwise creates a pool bound to that
family. The device is represented by its `get_queue_family_count()`. -/
def CommandPool.new (queue_family_count : Nat) (queue_family_index : Nat) :
    Except CommandPoolCreationError CommandPool :=
  if queue_family_index ≥ queue_family_count then
    .error (.invalidQueueFamily queue_family_index queue_family_count)
  else
    .ok ⟨queue_family_index⟩

/-! ## Physical device selection (src/vk/physical_device.rs) -/

/-- The `vk::PhysicalDeviceType` values this code distinguishes. -/
inductive PhysicalDeviceType where
  | discreteGpu
  | integratedGpu
  | virtualGpu
  | cpu
  | otherDevice
deriving DecidableEq, Repr

/-- One queue family of a device: the GRAPHICS bit of
`QueueFamilyProperties::queue_flags`, plus the tabulated answer of the
driver query `get_physical_device_surface_support(device, id, surface)`
for this family on the bound surface. -/
structure QueueFamilyProps where
  graphics : Bool
  present_support : Bool
deriving DecidableEq, Repr

/-- A physical device as the selection code observes it through driver
queries: its properties (`device_type`), its enumerable device-extension
names, the feature report (`vulkan_memory_model`,
`features.geometry_shader`), its queue families, and the surface info
for the bound surface (`query_device_surface_info`). -/
structure PhysDevice where
  device_type : PhysicalDeviceType
  available_extensions : List String
  vulkan_memory_model : Bool
  geometry_shader : Nat
  queue_families : List QueueFamilyProps
  surface_info : PhysicalDeviceSurfaceInfo
deriving DecidableEq, Repr

/-- The `QFFilter` closure type of src/vk/physical_device.rs. -/
def QFFilter : Type := PhysDevice → Nat → QueueFamilyProps → Bool

/-- `QueueFamilyIndices`: graphics/present candidates plus the two
filters. -/
structure QueueFamilyIndices where
  graphics : Option Nat
  present : Option Nat
  graphics_filter : QFFilter
  present_filter : QFFilter

/-- `QueueFamilyIndices::new`. -/
def QueueFamilyIndices.new (graphics_filter present_filter : QFFilter) :
    QueueFamilyIndices :=
  { graphics := none, present := none, graphics_filter, present_filter }

/-- `QueueFamilyIndices::try_queue`: runs both filters on one family and
records its id for each filter that accepts. -/
def QueueFamilyIndices.try_queue (qfi : QueueFamilyIndices)
    (physical_device : PhysDevice) (id : Nat) (props : QueueFamilyProps) :
    QueueFamilyIndices :=
  let qfi1 :=
    if qfi.graphics_filter physical_device id props then
      { qfi with graphics := some id }
    else qfi
  if qfi1.present_filter physical_device id props then
    { qfi1 with present := some id }
  else qfi1

/-- `QueueFamilyIndices::fill`: feeds every queue family of the device,
in enumeration order, to `try_queue`. -/
def QueueFamilyIndices.fill (qfi : QueueFamilyIndices)
    (physical_device : PhysDevice) : QueueFamilyIndices :=
  physical_device.queue_families.enum.foldl
    (fun q p => q.try_queue physical_device p.1 p.2) qfi

/-- `QueueFamilyIndices::is_complete`. -/
def QueueFamilyIndices.is_complete (qfi : QueueFamilyIndices) : Bool :=
  qfi.graphics.isSome && qfi.present.isSome

/-- `filter_graphic_qf`: the family's flags contain GRAPHICS. -/
def filter_graphic_qf (_device : PhysDevice) (_id : Nat)
    (props : QueueFamilyProps) : Bool :=
  props.graphics

/-- `filter_present_qf`: the family supports presentation to the surface
and the device's surface info passes `check_surface_info`. -/
def filter_present_qf (device : PhysDevice) (_id : Nat)
    (props : QueueFamilyProps) : Bool :=
  if !props.present_support then
    false
  else if !check_surface_info device.surface_info then
    false
  else
    true

/-- `QueueFamilyIndices::default`: the draw-queues chooser used by the
rendering path. -/
def QueueFamilyIndices.defaultChooser : QueueFamilyIndices :=
  QueueFamilyIndices.new filter_graphic_qf filter_present_qf

/-- `REQUIRED_DEVICE_EXTENSIONS` (src/vk/device.rs). -/
def REQUIRED_DEVICE_EXTENSIONS : List String :=
  ["VK_KHR_swapchain", "VK_KHR_vulkan_memory_model"]

/-- The free function `device_extensions::check_extensions`: builds a
fresh manager from the device's enumerated extension names and runs the
check. -/
def checkDeviceExtensions (device : PhysDevice) (extensions : List String) :
    Except String Unit :=
  (DeviceExtensionManager.mk device.available_extensions []).check_extensions
    extensions

/-- `rate_physical_device`: 0 unless the device type is a discrete or
integrated GPU, every required device extension is available, the
`vulkan_memory_model` feature is set, the `geometry_shader` feature flag
equals 1, and the chooser is complete after filling; 1 otherwise. -/
def rate_physical_device (device : PhysDevice) (qfi : QueueFamilyIndices) :
    Int :=
  if ¬(device.device_type = PhysicalDeviceType.discreteGpu
      ∨ device.device_type = PhysicalDeviceType.integratedGpu) then
    0
  else
    match checkDeviceExtensions device REQUIRED_DEVICE_EXTENSIONS with
    | .error _ => 0
    | .ok () =>
      if !device.vulkan_memory_model then
        0
      else if device.geometry_shader ≠ 1 then
        0
      else if !(qfi.fill device).is_complete then
        0
      else
        1

/-- `PhysicalDeviceChoice`. -/
structure PhysicalDeviceChoice where
  device : PhysDevice
  queue_family_indices : QueueFamilyIndices

/-- The comparison step of Rust `Iterator::max_by_key`: keep the
accumulator only when its key is strictly greater, so on equal keys the
later element wins. -/
def pickMax {α : Type} (acc y : Int × α) : Int × α :=
  if acc.1 > y.1 then acc else y

/-- Rust `Iterator::max_by_key` on a list of (key, value) pairs: `none`
on the empty list, otherwise the element with the maximal key, the LAST
such element when several keys are equal. -/
def maxByKeyLast {α : Type} : List (Int × α) → Option (Int × α)
  | [] => none
  | x :: xs => some (xs.foldl pickMax x)

/-- `choose_physical_device`: rates every enumerated device, takes the
max-rated one (`max_by_key`), fails on an empty list or a best rating
≤ 0, and otherwise refills the chooser on the winner. -/
def choose_physical_device (devices : List PhysDevice)
    (queue_family_indices : QueueFamilyIndices) :
    Except String PhysicalDeviceChoice :=
  match maxByKeyLast (devices.map fun pdev =>
      (rate_physical_device pdev queue_family_indices, pdev)) with
  | none => .error "No physical device found."
  | some rated =>
    if rated.1 ≤ 0 then
      .error "No suitable physical device found."
    else
      .ok ⟨rated.2, queue_family_indices.fill rated.2⟩

/-- The common recursion scheme of the three capability checks: walk the
required names in order and fail with the first one the availability
predicate rejects. Each manager's check function is proved equal to this
scheme instantiated with its own availability test. -/
def checkNames (avail : String → Bool) : List String → Except String Unit
  | [] => .ok ()
  | x :: rest => if avail x then checkNames avail rest else .error x

/-! ## Concrete devices used to exercise the selection code -/

/-- A surface report a swapchain can be built from: one sRGB BGRA format
and FIFO present mode. -/
def goodSurfaceInfo : PhysicalDeviceSurfaceInfo :=
  { capabilities := ⟨2, 0, ⟨640, 480⟩, 0⟩,
    formats := [⟨VkFormat.b8g8r8a8Srgb, ColorSpace.srgbNonlinear⟩],
    present_modes := [PresentMode.fifo] }

/-- A queue family with the GRAPHICS flag and surface support. -/
def goodFamily : QueueFamilyProps := ⟨true, true⟩

/-- A discrete GPU passing every check of `rate_physical_device`. -/
def goodDevice1 : PhysDevice :=
  { device_type := PhysicalDeviceType.discreteGpu,
    available_extensions := ["VK_KHR_swapchain", "VK_KHR_vulkan_memory_model"],
    vulkan_memory_model := true,
    geometry_shader := 1,
    queue_families := [goodFamily],
    surface_info := goodSurfaceInfo }

/-- An integrated GPU passing every check of `rate_physical_device`;
distinct from `goodDevice1` but rated identically. -/
def goodDevice2 : PhysDevice :=
  { goodDevice1 with device_type := PhysicalDeviceType.integratedGpu }

/-! ## Theorems -/

/-- C7: for every surface capability report whose `min_image_count + 1`
does not overflow u32, `choose_image_count` returns `min_image_count + 1`,
clamped down to `max_image_count` when that cap is non-zero and lower. -/
theorem choose_image_count_spec (c : SurfaceCapabilities)
    (h : c.min_image_count + 1 < 2 ^ 32) :
    choose_image_count c =
      if c.max_image_count ≠ 0 ∧ c.max_image_count < c.min_image_count + 1
      then c.max_image_count
      else c.min_image_count + 1 := by
  unfold choose_image_count
  rw [Nat.mod_eq_of_lt h]

/-- Witness for C7: `min_image_count = 2, max_image_count = 0` yields 3;
`min_image_count = 2, max_image_count = 2` yields 2. -/
theorem choose_image_count_spec_witness :
    choose_image_count ⟨2, 0, ⟨640, 480⟩, 0⟩ = 3 ∧
    choose_image_count ⟨2, 2, ⟨640, 480⟩, 0⟩ = 2 := by
  constructor
  · rw [choose_image_count_spec ⟨2, 0, ⟨640, 480⟩, 0⟩ (by norm_num)]
    norm_num
  · rw [choose_image_count_spec ⟨2, 2, ⟨640, 480⟩, 0⟩ (by norm_num)]
    norm_num

/-- C10: `CommandPool::new` fails with `InvalidQueueFamily` carrying the
offending index and the device's queue-family count whenever the index is
not below that count (no pool is produced), and otherwise returns a pool
bound to the requested family. -/
theorem command_pool_new_spec (queue_family_count queue_family_index : Nat) :
    (queue_family_index ≥ queue_family_count →
      CommandPool.new queue_family_count queue_family_index =
        .error (.invalidQueueFamily queue_family_index queue_family_count)) ∧
    (queue_family_index < queue_family_count →
      CommandPool.new queue_family_count queue_family_index =
        .ok ⟨queue_family_index⟩) := by
  constructor
  · intro h
    simp [CommandPool.new, h]
  · intro h
    simp [CommandPool.new, Nat.not_le.mpr h]

/-- Witness for C10: index 5 on a 2-family device is rejected with the
index and the range length; index 1 yields a pool bound to family 1. -/
theorem command_pool_new_spec_witness :
    CommandPool.new 2 5 =
      .error (.invalidQueueFamily 5 2) ∧
    CommandPool.new 2 1 = .ok ⟨1⟩ :=
  ⟨(command_pool_new_spec 2 5).1 (by norm_num),
   (command_pool_new_spec 2 1).2 (by norm_num)⟩

/-- C8: while a Fence is in the `Waiting` state, `reset`, `raw_handle`,
dropping the fence, and starting a second wait all panic (embedded as
`none`) instead of proceeding, so a second concurrent waiter can never be
started. -/
theorem fence_waiting_panics (f : Fence) (n : Nat)
    (h : f.fence = FenceState.waiting n) :
    f.reset = none ∧ f.raw_handle = none ∧ f.drop = none ∧
      f.fence.start_wait = none := by
  obtain ⟨st⟩ := f
  cases st <;>
    simp_all [Fence.reset, Fence.raw_handle, Fence.drop, FenceState.start_wait]

/-- Witness for C8 at a concrete waiting fence. -/
theorem fence_waiting_panics_witness :
    (Fence.mk (FenceState.waiting 7)).reset = none ∧
    (Fence.mk (FenceState.waiting 7)).raw_handle = none ∧
    (Fence.mk (FenceState.waiting 7)).drop = none ∧
    (Fence.mk (FenceState.waiting 7)).fence.start_wait = none :=
  fence_waiting_panics ⟨FenceState.waiting 7⟩ 7 rfl

/-- C9: on an incomplete Draw Queues Chooser, `requirements` and
`fill_queues` hit the programming-error panic (embedded as
`SelectorPanic.incompleteChooser`); once `is_complete` holds, neither
call can reach that panic branch. -/
theorem selector_incomplete_panics (s : DrawQueueFamilySelector)
    (raw : List (Nat × List Nat)) :
    (s.is_complete = false →
      s.requirements = .error SelectorPanic.incompleteChooser ∧
      s.fill_queues raw = .error SelectorPanic.incompleteChooser) ∧
    (s.is_complete = true →
      s.requirements ≠ .error SelectorPanic.incompleteChooser ∧
      s.fill_queues raw ≠ .error SelectorPanic.incompleteChooser) := by
  obtain ⟨og, op⟩ := s
  constructor
  · intro h
    constructor <;>
      simp [DrawQueueFamilySelector.requirements,
        DrawQueueFamilySelector.fill_queues, h]
  · intro h
    cases og with
    | none => simp [DrawQueueFamilySelector.is_complete] at h
    | some g =>
      cases op with
      | none => simp [DrawQueueFamilySelector.is_complete] at h
      | some p =>
        constructor
        · simp only [DrawQueueFamilySelector.requirements, h,
            Bool.not_true, Bool.false_eq_true, if_false]
          split <;> simp
        · simp only [DrawQueueFamilySelector.fill_queues, h,
            Bool.not_true, Bool.false_eq_true, if_false]
          split
          · split <;> simp
          · simp

/-- Witness for C9: a chooser with both families unset panics from both
calls; a chooser with both set reaches neither panic. -/
theorem selector_incomplete_panics_witness :
    ((DrawQueueFamilySelector.mk none none).requirements =
        .error SelectorPanic.incompleteChooser ∧
      (DrawQueueFamilySelector.mk none none).fill_queues [] =
        .error SelectorPanic.incompleteChooser) ∧
    ((DrawQueueFamilySelector.mk (some 0) (some 0)).requirements ≠
        .error SelectorPanic.incompleteChooser ∧
      (DrawQueueFamilySelector.mk (some 0) (some 0)).fill_queues [] ≠
        .error SelectorPanic.incompleteChooser) :=
  ⟨(selector_incomplete_panics ⟨none, none⟩ []).1 rfl,
   (selector_incomplete_panics ⟨some 0, some 0⟩ []).2 rfl⟩

/-- C5: on a completed Draw Queues Chooser with graphics family `g` and
present family `p`, `requirements` returns exactly `[(g, [0.0])]` when
`g = p` and `[(g, [0.0]), (p, [0.0])]` otherwise, and `fill_queues`
returns the pair whose graphics queue is the first queue of the raw
entry found for family `g` and whose present queue is the first queue of
the raw entry found for family `p`. -/
theorem draw_selector_requirements_fill_spec
    (s : DrawQueueFamilySelector) (g p : Nat)
    (raw : List (Nat × List Nat)) (gq pq : Nat) (gqs pqs : List Nat)
    (hg : s.graphics = some g) (hp : s.present = some p)
    (hfg : raw.find? (fun e => e.1 = g) = some (g, gq :: gqs))
    (hfp : raw.find? (fun e => e.1 = p) = some (p, pq :: pqs)) :
    (g = p → s.requirements = .ok [(g, [0])]) ∧
    (g ≠ p → s.requirements = .ok [(g, [0]), (p, [0])]) ∧
    s.fill_queues raw = .ok ⟨gq, pq⟩ := by
  obtain ⟨og, op⟩ := s
  simp only at hg hp
  subst hg hp
  refine ⟨?_, ?_, ?_⟩
  · intro hgp
    simp [DrawQueueFamilySelector.requirements,
      DrawQueueFamilySelector.is_complete, hgp]
  · intro hgp
    simp [DrawQueueFamilySelector.requirements,
      DrawQueueFamilySelector.is_complete, hgp]
  · simp [DrawQueueFamilySelector.fill_queues,
      DrawQueueFamilySelector.is_complete, hfg, hfp]

/-- Witness for C5: distinct families 0 and 1 with raw queues
`[(0, [10]), (1, [20])]`, and coinciding family 3 with raw `[(3, [5])]`. -/
theorem draw_selector_requirements_fill_spec_witness :
    (DrawQueueFamilySelector.mk (some 0) (some 1)).requirements =
      .ok [(0, [0]), (1, [0])] ∧
    (DrawQueueFamilySelector.mk (some 0) (some 1)).fill_queues
      [(0, [10]), (1, [20])] = .ok ⟨10, 20⟩ ∧
    (DrawQueueFamilySelector.mk (some 3) (some 3)).requirements =
      .ok [(3, [0])] :=
  ⟨(draw_selector_requirements_fill_spec ⟨some 0, some 1⟩ 0 1
      [(0, [10]), (1, [20])] 10 20 [] [] rfl rfl rfl rfl).2.1 (by norm_num),
   (draw_selector_requirements_fill_spec ⟨some 0, some 1⟩ 0 1
      [(0, [10]), (1, [20])] 10 20 [] [] rfl rfl rfl rfl).2.2,
   (draw_selector_requirements_fill_spec ⟨some 3, some 3⟩ 3 3
      [(3, [5])] 5 5 [] [] rfl rfl rfl rfl).1 rfl⟩

/-- C2: the command-buffer state machine. `begin` succeeds exactly from
`Initial` or `Executable` and moves to `Recording`; the six recording
operations and `end` succeed exactly while `Recording` (with `end`
moving to `Executable`); every operation invoked in any other state
fails with `InvalidCommandBufferState` carrying the current state and
leaves the buffer unchanged. -/
theorem command_buffer_state_machine (cb : CommandBuffer)
    (rp fb pl vp sc : Nat) (di : DrawInfo) :
    ((cb.state = CommandBufferState.initial
        ∨ cb.state = CommandBufferState.executable) →
      cb.begin = (.ok (), { cb with state := CommandBufferState.recording })) ∧
    ((cb.state ≠ CommandBufferState.initial
        ∧ cb.state ≠ CommandBufferState.executable) →
      cb.begin = (.error ⟨cb.state⟩, cb)) ∧
    (cb.state = CommandBufferState.recording →
      cb.cmd_begin_render_pass rp fb =
        (.ok (), { cb with markers := cb.markers
          ++ [Marker.renderPassMarker rp, Marker.framebufferMarker fb] }) ∧
      cb.cmd_bind_graphics_pipeline pl = (.ok (), cb) ∧
      cb.cmd_set_viewport vp = (.ok (), cb) ∧
      cb.cmd_set_scissor sc = (.ok (), cb) ∧
      cb.cmd_draw di = (.ok (), cb) ∧
      cb.cmd_end_render_pass = (.ok (), cb) ∧
      cb.recordEnd =
        (.ok (), { cb with state := CommandBufferState.executable })) ∧
    (cb.state ≠ CommandBufferState.recording →
      cb.cmd_begin_render_pass rp fb = (.error ⟨cb.state⟩, cb) ∧
      cb.cmd_bind_graphics_pipeline pl = (.error ⟨cb.state⟩, cb) ∧
      cb.cmd_set_viewport vp = (.error ⟨cb.state⟩, cb) ∧
      cb.cmd_set_scissor sc = (.error ⟨cb.state⟩, cb) ∧
      cb.cmd_draw di = (.error ⟨cb.state⟩, cb) ∧
      cb.cmd_end_render_pass = (.error ⟨cb.state⟩, cb) ∧
      cb.recordEnd = (.error ⟨cb.state⟩, cb)) := by
  obtain ⟨st, ms⟩ := cb
  refine ⟨?_, ?_, ?_, ?_⟩ <;> intro h <;> cases st <;>
    simp_all [CommandBuffer.begin, CommandBuffer.cmd_begin_render_pass,
      CommandBuffer.cmd_bind_graphics_pipeline, CommandBuffer.cmd_set_viewport,
      CommandBuffer.cmd_set_scissor, CommandBuffer.cmd_draw,
      CommandBuffer.cmd_end_render_pass, CommandBuffer.recordEnd]

/-- Witness for C2: a fresh buffer begins successfully; `cmd_draw`
before `begin` fails with `InvalidCommandBufferState(Initial)` and the
buffer stays in `Initial`; `end` in `Pending` fails carrying `Pending`. -/
theorem command_buffer_state_machine_witness :
    (CommandBuffer.mk CommandBufferState.initial []).begin =
      (.ok (), ⟨CommandBufferState.recording, []⟩) ∧
    (CommandBuffer.mk CommandBufferState.initial []).cmd_draw ⟨3, 1, 0, 0⟩ =
      (.error ⟨CommandBufferState.initial⟩,
        ⟨CommandBufferState.initial, []⟩) ∧
    (CommandBuffer.mk CommandBufferState.pending []).recordEnd =
      (.error ⟨CommandBufferState.pending⟩,
        ⟨CommandBufferState.pending, []⟩) :=
  ⟨(command_buffer_state_machine ⟨CommandBufferState.initial, []⟩
      0 0 0 0 0 ⟨3, 1, 0, 0⟩).1 (Or.inl rfl),
   ((command_buffer_state_machine ⟨CommandBufferState.initial, []⟩
      0 0 0 0 0 ⟨3, 1, 0, 0⟩).2.2.2 (by simp)).2.2.2.2.1,
   ((command_buffer_state_machine ⟨CommandBufferState.pending, []⟩
      0 0 0 0 0 ⟨3, 1, 0, 0⟩).2.2.2 (by simp)).2.2.2.2.2.2⟩

/-- `List.find?` skips a prefix on which the predicate is false and
returns the first hit. -/
theorem find?_skip_front {α : Type} (p : α → Bool) (x : α) :
    ∀ (pre post : List α), (∀ y ∈ pre, p y = false) → p x = true →
      (pre ++ x :: post).find? p = some x := by
  intro pre post h hx
  induction pre with
  | nil => simp [List.find?_cons, hx]
  | cons a t ih =>
    have ha : p a = false := h a (List.mem_cons_self a t)
    simp only [List.cons_append, List.find?_cons, ha, cond_false]
    exact ih fun y hy => h y (List.mem_cons_of_mem a hy)

/-- C6: `choose_format` returns the first format equal to
`B8G8R8A8_SRGB` with `SRGB_NONLINEAR` color space (and `none` when no
format matches; on `[{R8G8B8A8_UNORM, ...}, {B8G8R8A8_SRGB,
SRGB_NONLINEAR}]` it returns the second entry), `choose_present_mode`
returns the first mode equal to `FIFO` (`none` when absent), and
`check_surface_info` reports the surface unusable exactly when one of
the two is absent. -/
theorem surface_config_choice_spec :
    (∀ (pre : List SurfaceFormat) (f : SurfaceFormat)
        (post : List SurfaceFormat),
      (∀ g ∈ pre, ¬(g.format = VkFormat.b8g8r8a8Srgb
          ∧ g.color_space = ColorSpace.srgbNonlinear)) →
      f.format = VkFormat.b8g8r8a8Srgb →
      f.color_space = ColorSpace.srgbNonlinear →
      choose_format (pre ++ f :: post) = some f) ∧
    (∀ formats : List SurfaceFormat,
      (∀ g ∈ formats, ¬(g.format = VkFormat.b8g8r8a8Srgb
          ∧ g.color_space = ColorSpace.srgbNonlinear)) →
      choose_format formats = none) ∧
    choose_format [⟨VkFormat.r8g8b8a8Unorm, ColorSpace.srgbNonlinear⟩,
        ⟨VkFormat.b8g8r8a8Srgb, ColorSpace.srgbNonlinear⟩] =
      some ⟨VkFormat.b8g8r8a8Srgb, ColorSpace.srgbNonlinear⟩ ∧
    (∀ (pre post : List PresentMode),
      (∀ m ∈ pre, m ≠ PresentMode.fifo) →
      choose_present_mode (pre ++ PresentMode.fifo :: post) =
        some PresentMode.fifo) ∧
    (∀ modes : List PresentMode, PresentMode.fifo ∉ modes →
      choose_present_mode modes = none) ∧
    (∀ info : PhysicalDeviceSurfaceInfo,
      check_surface_info info = false ↔
        choose_format info.formats = none
          ∨ choose_present_mode info.present_modes = none) := by
  refine ⟨?_, ?_, ?_, ?_, ?_, ?_⟩
  · intro pre f post hpre hf hcs
    unfold choose_format
    exact find?_skip_front _ f pre post
      (fun y hy => by simpa using hpre y hy) (by simp [hf, hcs])
  · intro formats hnone
    unfold choose_format
    exact List.find?_eq_none.mpr fun g hg => by simpa using hnone g hg
  · rfl
  · intro pre post hpre
    unfold choose_present_mode
    exact find?_skip_front _ PresentMode.fifo pre post
      (fun y hy => by simpa using hpre y hy) (by simp)
  · intro modes hnotin
    unfold choose_present_mode
    exact List.find?_eq_none.mpr fun m hm => by
      simp only [decide_eq_true_eq]
      intro hmf
      exact hnotin (hmf ▸ hm)
  · intro info
    cases hcf : choose_format info.formats <;>
      cases hcp : choose_present_mode info.present_modes <;>
        simp [check_surface_info, hcf, hcp]

/-- Witness for C6 at concrete format and mode lists. -/
theorem surface_config_choice_spec_witness :
    choose_format
        [⟨VkFormat.r8g8b8a8Unorm, ColorSpace.srgbNonlinear⟩,
         ⟨VkFormat.b8g8r8a8Srgb, ColorSpace.srgbNonlinear⟩] =
      some ⟨VkFormat.b8g8r8a8Srgb, ColorSpace.srgbNonlinear⟩ ∧
    choose_present_mode
        [PresentMode.mailbox, PresentMode.fifo, PresentMode.immediate] =
      some PresentMode.fifo ∧
    choose_present_mode [PresentMode.mailbox] = none ∧
    (check_surface_info
        ⟨⟨2, 0, ⟨640, 480⟩, 0⟩, [], [PresentMode.fifo]⟩ = false ↔
      choose_format ([] : List SurfaceFormat) = none
        ∨ choose_present_mode [PresentMode.fifo] = none) :=
  ⟨surface_config_choice_spec.2.2.1,
   surface_config_choice_spec.2.2.2.1 [PresentMode.mailbox]
     [PresentMode.immediate] (by simp),
   surface_config_choice_spec.2.2.2.2.1 [PresentMode.mailbox] (by simp),
   surface_config_choice_spec.2.2.2.2.2
     ⟨⟨2, 0, ⟨640, 480⟩, 0⟩, [], [PresentMode.fifo]⟩⟩

/-- `checkNames` succeeds exactly when every required name is
available. -/
theorem checkNames_ok_iff (avail : String → Bool) :
    ∀ req, checkNames avail req = .ok () ↔ ∀ e ∈ req, avail e = true := by
  intro req
  induction req with
  | nil => simp [checkNames]
  | cons x xs ih =>
    by_cases hx : avail x = true <;>
      simp [checkNames, hx, ih, List.forall_mem_cons]

/-- On failure, `checkNames` reports the first required name the
availability predicate rejects. -/
theorem checkNames_error (avail : String → Bool) :
    ∀ req e, checkNames avail req = .error e →
      ∃ pre post, req = pre ++ e :: post ∧ avail e = false ∧
        ∀ x ∈ pre, avail x = true := by
  intro req
  induction req with
  | nil => intro e h; simp [checkNames] at h
  | cons x xs ih =>
    intro e h
    by_cases hx : avail x = true
    · rw [checkNames, if_pos hx] at h
      obtain ⟨pre, post, hsplit, hae, hpre⟩ := ih e h
      refine ⟨x :: pre, post, by rw [hsplit]; rfl, hae, ?_⟩
      intro z hz
      rcases List.mem_cons.mp hz with rfl | hz2
      · exact hx
      · exact hpre z hz2
    · rw [checkNames, if_neg hx] at h
      injection h with h1
      subst h1
      exact ⟨[], xs, rfl, Bool.not_eq_true _ ▸ hx, by simp⟩

/-- `ExtensionManager::check_extensions` is `checkNames` with
availability "some available entry bears the name". -/
theorem extension_check_eq (m : ExtensionManager) :
    ∀ req, m.check_extensions req =
      checkNames (fun e => m.available.any fun a => a.name = e) req := by
  intro req
  induction req with
  | nil => rfl
  | cons x xs ih => simp only [ExtensionManager.check_extensions, checkNames, ih]

/-- `ValidationLayerManager::check_layers` is `checkNames` with
availability "some available layer bears the name". -/
theorem validation_check_eq (m : ValidationLayerManager) :
    ∀ req, m.check_layers req =
      checkNames (fun l => m.available.any fun vl => vl.name = l) req := by
  intro req
  induction req with
  | nil => rfl
  | cons x xs ih => simp only [ValidationLayerManager.check_layers, checkNames, ih]

/-- `DeviceExtensionManager::check_extensions` is `checkNames` with
availability "the set contains the name". -/
theorem device_check_eq (m : DeviceExtensionManager) :
    ∀ req, m.check_extensions req =
      checkNames (fun e => m.available.contains e) req := by
  intro req
  induction req with
  | nil => rfl
  | cons x xs ih =>
    simp only [DeviceExtensionManager.check_extensions, checkNames, ih]

/-- The result component of `ExtensionManager::add_extensions` is the
result of its check. -/
theorem extension_add_fst (m : ExtensionManager) (req : List String) :
    (m.add_extensions req).1 = m.check_extensions req := by
  cases hc : m.check_extensions req with
  | error e => simp [ExtensionManager.add_extensions, hc]
  | ok u => cases u; simp [ExtensionManager.add_extensions, hc]

/-- The result component of `ValidationLayerManager::add_layers` is the
result of its check. -/
theorem validation_add_fst (m : ValidationLayerManager) (req : List String) :
    (m.add_layers req).1 = m.check_layers req := by
  cases hc : m.check_layers req with
  | error e => simp [ValidationLayerManager.add_layers, hc]
  | ok u => cases u; simp [ValidationLayerManager.add_layers, hc]

/-- The result component of `DeviceExtensionManager::add_extensions` is
the result of its check. -/
theorem device_add_fst (m : DeviceExtensionManager) (req : List String) :
    (m.add_extensions req).1 = m.check_extensions req := by
  cases hc : m.check_extensions req with
  | error e => simp [DeviceExtensionManager.add_extensions, hc]
  | ok u => cases u; simp [DeviceExtensionManager.add_extensions, hc]

/-- C3: for each capability negotiator (instance extensions, device
extensions, validation layers), `add` succeeds iff every required name
is available; on failure the reported missing name is the first required
name not in the available set (so a member of required minus available)
and the manager is left unchanged. -/
theorem capability_add_spec :
    (∀ (m : ExtensionManager) (req : List String),
      ((m.add_extensions req).1 = .ok () ↔
        ∀ e ∈ req, ∃ a ∈ m.available, a.name = e) ∧
      (∀ e, (m.add_extensions req).1 = .error e →
        (∃ pre post, req = pre ++ e :: post ∧
          (∀ a ∈ m.available, a.name ≠ e) ∧
          ∀ x ∈ pre, ∃ a ∈ m.available, a.name = x) ∧
        (m.add_extensions req).2 = m)) ∧
    (∀ (m : DeviceExtensionManager) (req : List String),
      ((m.add_extensions req).1 = .ok () ↔ ∀ e ∈ req, e ∈ m.available) ∧
      (∀ e, (m.add_extensions req).1 = .error e →
        (∃ pre post, req = pre ++ e :: post ∧ e ∉ m.available ∧
          ∀ x ∈ pre, x ∈ m.available) ∧
        (m.add_extensions req).2 = m)) ∧
    (∀ (m : ValidationLayerManager) (req : List String),
      ((m.add_layers req).1 = .ok () ↔
        ∀ l ∈ req, ∃ vl ∈ m.available, vl.name = l) ∧
      (∀ l, (m.add_layers req).1 = .error l →
        (∃ pre post, req = pre ++ l :: post ∧
          (∀ vl ∈ m.available, vl.name ≠ l) ∧
          ∀ x ∈ pre, ∃ vl ∈ m.available, vl.name = x) ∧
        (m.add_layers req).2 = m)) := by
  refine ⟨fun m req => ⟨?_, fun e he => ⟨?_, ?_⟩⟩,
    fun m req => ⟨?_, fun e he => ⟨?_, ?_⟩⟩,
    fun m req => ⟨?_, fun e he => ⟨?_, ?_⟩⟩⟩
  · rw [extension_add_fst, extension_check_eq, checkNames_ok_iff]
    simp [List.any_eq_true]
  · rw [extension_add_fst, extension_check_eq] at he
    obtain ⟨pre, post, hsplit, hae, hpre⟩ := checkNames_error _ req e he
    refine ⟨pre, post, hsplit, ?_, ?_⟩
    · intro a ha
      simp only [List.any_eq_false, decide_eq_true_eq] at hae
      exact hae a ha
    · intro x hx
      have := hpre x hx
      simpa [List.any_eq_true] using this
  · rw [extension_add_fst, extension_check_eq] at he
    cases hc : m.check_extensions req with
    | error e2 => simp [ExtensionManager.add_extensions, hc]
    | ok u =>
      rw [extension_check_eq] at hc
      rw [hc] at he
      exact absurd he (by simp)
  · rw [device_add_fst, device_check_eq, checkNames_ok_iff]
    simp
  · rw [device_add_fst, device_check_eq] at he
    obtain ⟨pre, post, hsplit, hae, hpre⟩ := checkNames_error _ req e he
    refine ⟨pre, post, hsplit, ?_, ?_⟩
    · simpa using hae
    · intro x hx
      simpa using hpre x hx
  · rw [device_add_fst, device_check_eq] at he
    cases hc : m.check_extensions req with
    | error e2 => simp [DeviceExtensionManager.add_extensions, hc]
    | ok u =>
      rw [device_check_eq] at hc
      rw [hc] at he
      exact absurd he (by simp)
  · rw [validation_add_fst, validation_check_eq, checkNames_ok_iff]
    simp [List.any_eq_true]
  · rw [validation_add_fst, validation_check_eq] at he
    obtain ⟨pre, post, hsplit, hae, hpre⟩ := checkNames_error _ req e he
    refine ⟨pre, post, hsplit, ?_, ?_⟩
    · intro vl hvl
      simp only [List.any_eq_false, decide_eq_true_eq] at hae
      exact hae vl hvl
    · intro x hx
      simpa [List.any_eq_true] using hpre x hx
  · rw [validation_add_fst, validation_check_eq] at he
    cases hc : m.check_layers req with
    | error e2 => simp [ValidationLayerManager.add_layers, hc]
    | ok u =>
      rw [validation_check_eq] at hc
      rw [hc] at he
      exact absurd he (by simp)

/-- Witness for C3: a request whose second name is missing fails naming
that name and leaves the managers unchanged; a fully available request
succeeds. -/
theorem capability_add_spec_witness :
    ((ExtensionManager.mk [⟨"alpha", false⟩]).add_extensions
        ["alpha", "beta"]).1 = .error "beta" ∧
    ((ExtensionManager.mk [⟨"alpha", false⟩]).add_extensions
        ["alpha", "beta"]).2 = ⟨[⟨"alpha", false⟩]⟩ ∧
    ((DeviceExtensionManager.mk ["alpha"] []).add_extensions
        ["alpha"]).1 = .ok () ∧
    ((ValidationLayerManager.mk [⟨"lay", false⟩]).add_layers
        ["missing"]).2 = ⟨[⟨"lay", false⟩]⟩ := by
  refine ⟨by rfl, ?_, ?_, ?_⟩
  · exact ((capability_add_spec.1 ⟨[⟨"alpha", false⟩]⟩
      ["alpha", "beta"]).2 "beta" (by rfl)).2
  · exact (capability_add_spec.2.1 ⟨["alpha"], []⟩ ["alpha"]).1.mpr
      (by simp)
  · exact ((capability_add_spec.2.2 ⟨[⟨"lay", false⟩]⟩
      ["missing"]).2 "missing" (by rfl)).2

/-- The free check used by `rate_physical_device` succeeds exactly when
every required extension name is among the device's enumerated ones. -/
theorem checkDeviceExtensions_ok_iff (d : PhysDevice) (req : List String) :
    checkDeviceExtensions d req = .ok () ↔
      ∀ e ∈ req, e ∈ d.available_extensions := by
  unfold checkDeviceExtensions
  rw [device_check_eq, checkNames_ok_iff]
  simp

/-- `rate_physical_device` only ever returns 0 or 1. -/
theorem rate_zero_or_one (d : PhysDevice) (qfi : QueueFamilyIndices) :
    rate_physical_device d qfi = 0 ∨ rate_physical_device d qfi = 1 := by
  unfold rate_physical_device
  by_cases h1 : d.device_type = PhysicalDeviceType.discreteGpu
      ∨ d.device_type = PhysicalDeviceType.integratedGpu
  · rw [if_neg (not_not_intro h1)]
    cases hce : checkDeviceExtensions d REQUIRED_DEVICE_EXTENSIONS with
    | error e => simp
    | ok u =>
      cases u
      cases hv : d.vulkan_memory_model <;>
        by_cases hg : d.geometry_shader = 1 <;>
          cases hq : (qfi.fill d).is_complete <;> simp [hv, hg, hq]
  · rw [if_pos h1]
    left
    rfl

/-- `rate_physical_device` returns 1 exactly when every check passes. -/
theorem rate_eq_one_iff (d : PhysDevice) (qfi : QueueFamilyIndices) :
    rate_physical_device d qfi = 1 ↔
      ((d.device_type = PhysicalDeviceType.discreteGpu
          ∨ d.device_type = PhysicalDeviceType.integratedGpu) ∧
        (∀ e ∈ REQUIRED_DEVICE_EXTENSIONS, e ∈ d.available_extensions) ∧
        d.vulkan_memory_model = true ∧
        d.geometry_shader = 1 ∧
        (qfi.fill d).is_complete = true) := by
  unfold rate_physical_device
  by_cases h1 : d.device_type = PhysicalDeviceType.discreteGpu
      ∨ d.device_type = PhysicalDeviceType.integratedGpu
  · rw [if_neg (not_not_intro h1)]
    cases hce : checkDeviceExtensions d REQUIRED_DEVICE_EXTENSIONS with
    | error e =>
      have hne : ¬ ∀ x ∈ REQUIRED_DEVICE_EXTENSIONS,
          x ∈ d.available_extensions := by
        intro hall
        rw [(checkDeviceExtensions_ok_iff d _).mpr hall] at hce
        cases hce
      simp [h1, hne]
    | ok u =>
      cases u
      have hex := (checkDeviceExtensions_ok_iff d _).mp hce
      cases hv : d.vulkan_memory_model <;>
        by_cases hg : d.geometry_shader = 1 <;>
          cases hq : (qfi.fill d).is_complete <;>
            (simp [h1, hex, hv, hg, hq]; try exact hex)
  · rw [if_pos h1]
    simp [h1]

/-- Unrolling the `max_by_key` fold: the result is either the start
accumulator (every list key strictly below it) or a list element that
every earlier element only reaches with a lower-or-equal key and every
later element stays strictly below. -/
theorem foldl_pick_split {α : Type} :
    ∀ (xs : List (Int × α)) (acc : Int × α),
      (xs.foldl pickMax acc = acc ∧ ∀ y ∈ xs, y.1 < acc.1) ∨
      (∃ l1 l2, xs = l1 ++ (xs.foldl pickMax acc) :: l2 ∧
        acc.1 ≤ (xs.foldl pickMax acc).1 ∧
        (∀ y ∈ l1, y.1 ≤ (xs.foldl pickMax acc).1) ∧
        ∀ y ∈ l2, y.1 < (xs.foldl pickMax acc).1) := by
  intro xs
  induction xs with
  | nil =>
    intro acc
    left
    exact ⟨rfl, by simp⟩
  | cons y ys ih =>
    intro acc
    rw [List.foldl_cons]
    by_cases hy : acc.1 > y.1
    · rw [show pickMax acc y = acc from by simp [pickMax, hy]]
      rcases ih acc with ⟨hm, hlt⟩ | ⟨l1, l2, hsplit, hle, h1, h2⟩
      · left
        refine ⟨hm, fun z hz => ?_⟩
        rcases List.mem_cons.mp hz with rfl | hz2
        · exact hy
        · exact hlt z hz2
      · right
        refine ⟨y :: l1, l2, by rw [List.cons_append, ← hsplit], hle,
          fun z hz => ?_, h2⟩
        rcases List.mem_cons.mp hz with rfl | hz2
        · exact le_trans (le_of_lt hy) hle
        · exact h1 z hz2
    · rw [show pickMax acc y = y from by simp [pickMax, hy]]
      have hay : acc.1 ≤ y.1 := le_of_not_lt hy
      rcases ih y with ⟨hm, hlt⟩ | ⟨l1, l2, hsplit, hle, h1, h2⟩
      · right
        refine ⟨[], ys, by simp [hm], by rw [hm]; exact hay, by simp,
          fun z hz => ?_⟩
        rw [hm]
        exact hlt z hz
      · right
        refine ⟨y :: l1, l2, by rw [List.cons_append, ← hsplit],
          le_trans hay hle, fun z hz => ?_, h2⟩
        rcases List.mem_cons.mp hz with rfl | hz2
        · exact hle
        · exact h1 z hz2

/-- A successful `max_by_key` splits its list around the returned
element: everything before has a lower-or-equal key, everything after a
strictly lower key (so on equal maximal keys the LAST one is returned). -/
theorem maxByKeyLast_split {α : Type} (l : List (Int × α)) (m : Int × α)
    (h : maxByKeyLast l = some m) :
    ∃ l1 l2, l = l1 ++ m :: l2 ∧ (∀ y ∈ l1, y.1 ≤ m.1) ∧
      ∀ y ∈ l2, y.1 < m.1 := by
  cases l with
  | nil => cases h
  | cons x xs =>
    have hm : xs.foldl pickMax x = m := by
      simpa [maxByKeyLast] using h
    rcases foldl_pick_split xs x with ⟨hmm, hlt⟩ | ⟨l1, l2, hsplit, hle, h1, h2⟩
    · have hx : m = x := by rw [← hm, hmm]
      refine ⟨[], xs, by simp [hx], by simp, fun z hz => ?_⟩
      rw [hx]
      exact hlt z hz
    · rw [hm] at hsplit hle h1 h2
      refine ⟨x :: l1, l2, by rw [List.cons_append, ← hsplit],
        fun z hz => ?_, h2⟩
      rcases List.mem_cons.mp hz with rfl | hz2
      · exact hle
      · exact h1 z hz2

/-- A successful `max_by_key` returns an element of its list. -/
theorem maxByKeyLast_mem {α : Type} (l : List (Int × α)) (m : Int × α)
    (h : maxByKeyLast l = some m) : m ∈ l := by
  obtain ⟨l1, l2, hsplit, _, _⟩ := maxByKeyLast_split l m h
  rw [hsplit]
  exact List.mem_append_right l1 (List.mem_cons_self m l2)

/-- `max_by_key` answers on every non-empty list. -/
theorem maxByKeyLast_isSome {α : Type} (l : List (Int × α)) (h : l ≠ []) :
    ∃ m, maxByKeyLast l = some m := by
  cases l with
  | nil => exact absurd rfl h
  | cons x xs => exact ⟨xs.foldl pickMax x, rfl⟩

/-- A mapped list that splits around an element pulls the split back to
the original list. -/
theorem map_eq_append_cons {α β : Type} (f : α → β) :
    ∀ (l : List α) (s1 : List β) (b : β) (s2 : List β),
      l.map f = s1 ++ b :: s2 →
      ∃ p x q, l = p ++ x :: q ∧ p.map f = s1 ∧ f x = b ∧ q.map f = s2 := by
  intro l
  induction l with
  | nil =>
    intro s1 b s2 h
    cases s1 <;> simp at h
  | cons a t ih =>
    intro s1 b s2 h
    cases s1 with
    | nil =>
      simp only [List.map_cons, List.nil_append] at h
      injection h with h1 h2
      exact ⟨[], a, t, rfl, rfl, h1, h2⟩
    | cons c cs =>
      simp only [List.map_cons, List.cons_append] at h
      injection h with h1 h2
      obtain ⟨p, x, q, hl, hp, hx, hq⟩ := ih cs b s2 h2
      exact ⟨a :: p, x, q, by rw [hl]; rfl, by simp [hp, h1], hx, hq⟩

/-- C1: a device whose type is not a discrete or integrated GPU, or
missing a required extension, or with a required feature flag unset, or
whose chooser is incomplete after inspecting every family, rates 0; a
device passing all checks rates exactly 1; selection fails with "No
physical device found." on an empty device list, fails with "No suitable
physical device found." when every rating is ≤ 0, and otherwise returns
a device whose rating is 1. -/
theorem physical_device_selection_spec :
    (∀ (d : PhysDevice) (qfi : QueueFamilyIndices),
      (¬(d.device_type = PhysicalDeviceType.discreteGpu
          ∨ d.device_type = PhysicalDeviceType.integratedGpu)
        ∨ (∃ e ∈ REQUIRED_DEVICE_EXTENSIONS, e ∉ d.available_extensions)
        ∨ d.vulkan_memory_model = false
        ∨ d.geometry_shader ≠ 1
        ∨ (qfi.fill d).is_complete = false) →
      rate_physical_device d qfi = 0) ∧
    (∀ (d : PhysDevice) (qfi : QueueFamilyIndices),
      (d.device_type = PhysicalDeviceType.discreteGpu
        ∨ d.device_type = PhysicalDeviceType.integratedGpu) →
      (∀ e ∈ REQUIRED_DEVICE_EXTENSIONS, e ∈ d.available_extensions) →
      d.vulkan_memory_model = true →
      d.geometry_shader = 1 →
      (qfi.fill d).is_complete = true →
      rate_physical_device d qfi = 1) ∧
    (∀ qfi : QueueFamilyIndices,
      choose_physical_device [] qfi = .error "No physical device found.") ∧
    (∀ (devices : List PhysDevice) (qfi : QueueFamilyIndices),
      devices ≠ [] →
      (∀ d ∈ devices, rate_physical_device d qfi ≤ 0) →
      choose_physical_device devices qfi =
        .error "No suitable physical device found.") ∧
    (∀ (devices : List PhysDevice) (qfi : QueueFamilyIndices)
        (choice : PhysicalDeviceChoice),
      choose_physical_device devices qfi = .ok choice →
      rate_physical_device choice.device qfi = 1) := by
  refine ⟨?_, ?_, ?_, ?_, ?_⟩
  · intro d qfi h
    rcases rate_zero_or_one d qfi with h0 | h1
    · exact h0
    · exfalso
      obtain ⟨ht, hex, hv, hg, hq⟩ := (rate_eq_one_iff d qfi).mp h1
      rcases h with h | ⟨e, he, hne⟩ | h | h | h
      · exact h ht
      · exact hne (hex e he)
      · rw [hv] at h
        cases h
      · exact h hg
      · rw [hq] at h
        cases h
  · intro d qfi ht hex hv hg hq
    exact (rate_eq_one_iff d qfi).mpr ⟨ht, hex, hv, hg, hq⟩
  · intro qfi
    rfl
  · intro devices qfi hne hle
    have hmapne : devices.map (fun pdev =>
        (rate_physical_device pdev qfi, pdev)) ≠ [] := by
      simpa using hne
    obtain ⟨m, hm⟩ := maxByKeyLast_isSome _ hmapne
    have hmem := maxByKeyLast_mem _ m hm
    obtain ⟨d, hd, hdm⟩ := List.mem_map.mp hmem
    have hm1 : m.1 ≤ 0 := by
      rw [← hdm]
      exact hle d hd
    unfold choose_physical_device
    rw [hm]
    exact if_pos hm1
  · intro devices qfi choice h
    unfold choose_physical_device at h
    cases hm : maxByKeyLast (devices.map fun pdev =>
        (rate_physical_device pdev qfi, pdev)) with
    | none =>
      rw [hm] at h
      cases h
    | some m =>
      rw [hm] at h
      have h2 : (if m.1 ≤ 0 then
            (Except.error "No suitable physical device found." :
              Except String PhysicalDeviceChoice)
          else .ok ⟨m.2, qfi.fill m.2⟩) = .ok choice := h
      by_cases hle : m.1 ≤ 0
      · rw [if_pos hle] at h2
        cases h2
      · rw [if_neg hle] at h2
        injection h2 with h1
        have hdev : choice.device = m.2 := by rw [← h1]
        have hmem := maxByKeyLast_mem _ m hm
        obtain ⟨d, _, hdm⟩ := List.mem_map.mp hmem
        have hm2 : m.2 = d := by rw [← hdm]
        have hm1 : m.1 = rate_physical_device d qfi := by rw [← hdm]
        rw [hdev, hm2]
        rcases rate_zero_or_one d qfi with h0 | h1
        · exfalso
          rw [hm1, h0] at hle
          exact hle le_rfl
        · exact h1

/-- Witness for C1: a device with `geometry_shader = 0` rates 0 and
alone yields "no suitable device"; a fully capable device rates 1 and
gets selected; the empty list yields "no device found". -/
theorem physical_device_selection_spec_witness :
    rate_physical_device { goodDevice1 with geometry_shader := 0 }
      QueueFamilyIndices.defaultChooser = 0 ∧
    rate_physical_device goodDevice1 QueueFamilyIndices.defaultChooser = 1 ∧
    choose_physical_device [] QueueFamilyIndices.defaultChooser =
      .error "No physical device found." ∧
    choose_physical_device [{ goodDevice1 with geometry_shader := 0 }]
      QueueFamilyIndices.defaultChooser =
      .error "No suitable physical device found." ∧
    rate_physical_device (PhysicalDeviceChoice.mk goodDevice1
        (QueueFamilyIndices.defaultChooser.fill goodDevice1)).device
      QueueFamilyIndices.defaultChooser = 1 :=
  ⟨physical_device_selection_spec.1 _ _
      (Or.inr (Or.inr (Or.inr (Or.inl (by decide))))),
   physical_device_selection_spec.2.1 _ _ (Or.inl rfl) (by decide) rfl rfl
     (by decide),
   physical_device_selection_spec.2.2.1 _,
   physical_device_selection_spec.2.2.2.1 _ _ (by simp) (by decide),
   physical_device_selection_spec.2.2.2.2 [goodDevice1]
     QueueFamilyIndices.defaultChooser
     ⟨goodDevice1, QueueFamilyIndices.defaultChooser.fill goodDevice1⟩ rfl⟩

/-- C4 counterexample: two distinct devices both rating 1; selection
returns the SECOND of them, not the first, so "first max wins" fails. -/
theorem choose_first_max_counterexample :
    rate_physical_device goodDevice1 QueueFamilyIndices.defaultChooser = 1 ∧
    rate_physical_device goodDevice2 QueueFamilyIndices.defaultChooser = 1 ∧
    goodDevice1 ≠ goodDevice2 ∧
    (choose_physical_device [goodDevice1, goodDevice2]
        QueueFamilyIndices.defaultChooser).map (fun c => c.device) =
      .ok goodDevice2 :=
  ⟨rfl, rfl, by decide, rfl⟩

/-- C4 amended: selection picks a device attaining the maximum rating,
and breaks ties by taking the LAST device (in enumeration order) that
attains the maximum: every device before the chosen one rates no higher,
every device after it rates strictly lower. -/
theorem choose_physical_device_last_max (devices : List PhysDevice)
    (qfi : QueueFamilyIndices) (choice : PhysicalDeviceChoice)
    (h : choose_physical_device devices qfi = .ok choice) :
    ∃ pre post, devices = pre ++ choice.device :: post ∧
      (∀ d ∈ pre, rate_physical_device d qfi ≤
        rate_physical_device choice.device qfi) ∧
      ∀ d ∈ post, rate_physical_device d qfi <
        rate_physical_device choice.device qfi := by
  unfold choose_physical_device at h
  cases hm : maxByKeyLast (devices.map fun pdev =>
      (rate_physical_device pdev qfi, pdev)) with
  | none =>
    rw [hm] at h
    cases h
  | some m =>
    rw [hm] at h
    have h2 : (if m.1 ≤ 0 then
          (Except.error "No suitable physical device found." :
            Except String PhysicalDeviceChoice)
        else .ok ⟨m.2, qfi.fill m.2⟩) = .ok choice := h
    by_cases hle : m.1 ≤ 0
    · rw [if_pos hle] at h2
      cases h2
    · rw [if_neg hle] at h2
      injection h2 with h1
      have hdev : choice.device = m.2 := by rw [← h1]
      obtain ⟨l1, l2, hsplit, hb1, hb2⟩ := maxByKeyLast_split _ m hm
      obtain ⟨p, x, q, hl, hp, hx, hq⟩ :=
        map_eq_append_cons _ devices l1 m l2 hsplit
      have hx2 : m.2 = x := by rw [← hx]
      have hx1 : m.1 = rate_physical_device x qfi := by rw [← hx]
      refine ⟨p, q, by rw [hdev, hx2]; exact hl, ?_, ?_⟩
      · intro d hd
        have hmem : (rate_physical_device d qfi, d) ∈ l1 := by
          rw [← hp]
          exact List.mem_map_of_mem _ hd
        have := hb1 _ hmem
        rw [hdev, hx2, ← hx1]
        exact this
      · intro d hd
        have hmem : (rate_physical_device d qfi, d) ∈ l2 := by
          rw [← hq]
          exact List.mem_map_of_mem _ hd
        have := hb2 _ hmem
        rw [hdev, hx2, ← hx1]
        exact this

/-- Witness for the amended C4 on the two-device tie: the chosen device
(`goodDevice2`) splits the list with no strictly-lower-rated device
after it. -/
theorem choose_physical_device_last_max_witness :
    ∃ pre post,
      [goodDevice1, goodDevice2] = pre ++
        (PhysicalDeviceChoice.mk goodDevice2
          (QueueFamilyIndices.defaultChooser.fill goodDevice2)).device
          :: post ∧
      (∀ d ∈ pre, rate_physical_device d QueueFamilyIndices.defaultChooser ≤
        rate_physical_device (PhysicalDeviceChoice.mk goodDevice2
            (QueueFamilyIndices.defaultChooser.fill goodDevice2)).device
          QueueFamilyIndices.defaultChooser) ∧
      ∀ d ∈ post, rate_physical_device d QueueFamilyIndices.defaultChooser <
        rate_physical_device (PhysicalDeviceChoice.mk goodDevice2
            (QueueFamilyIndices.defaultChooser.fill goodDevice2)).device
          QueueFamilyIndices.defaultChooser :=
  choose_physical_device_last_max [goodDevice1, goodDevice2]
    QueueFamilyIndices.defaultChooser
    ⟨goodDevice2, QueueFamilyIndices.defaultChooser.fill goodDevice2⟩ rfl

end Wknup
